import Mathlib

/-!
Shallow embedding of `semantic_kernel/connectors/memory/azure_cosmosdb/
azure_cosmos_db_memory_store.py`: the `AzureCosmosDBStoreApi` port, the
`MongoStoreApi` adapter and the `AzureCosmosDBMemoryStore` facade.

Conventions of the embedding:
- Python floats (embedding entries, similarity scores) are modelled as `ℚ`;
  the code performs no arithmetic on them, only comparisons and pass-through.
- Python exceptions are modelled by the `PyError` inductive and fallible
  operations return `Except PyError α`.
- The module-level environment values (`cosmos_api`, `cosmos_connstr`,
  `cosmos_database_name`, `cosmos_container_name` loaded by
  `azure_cosmos_db_settings_from_dot_env`) are modelled by a `CosmosConfig`
  value passed explicitly.
- The mutable MongoDB collection bound by `MongoStoreApi.ensure` is modelled
  by an explicit `MongoState` threaded through the operations.  The vector
  search executed by the aggregation pipeline is the database's black box:
  `MongoState.search` is its full ranked result, and the pipeline's
  `"k": limit` argument truncates it to the first `limit` candidates.
-/

namespace AzureCosmosDB

/-- Python exception kinds raised (or named by the specification) along the
paths modelled here.  `notFound` is the specification's `NotFound` taxonomy
entry; the code itself never raises it. -/
inductive PyError where
  | typeError
  | keyError
  | assertionError
  | notImplementedError
  | notFound
deriving DecidableEq, Repr

/-- Embedding vectors (`numpy` arrays in the source) as lists of rationals. -/
abbrev Embedding := List ℚ

/-- Timestamps are opaque instants; nothing in the modelled code inspects
them, so an integer stands in. -/
abbrev Timestamp := Int

/-- Modelled from the spec: the Record Model of `semantic_kernel.memory.
memory_record.MemoryRecord` (not under src/) — id, text, optional embedding
vector, description, free-form metadata, optional timestamp. -/
structure MemoryRecord where
  id : String
  text : String
  description : String
  additional_metadata : String
  embedding : Embedding
  timestamp : Option Timestamp
deriving DecidableEq, Repr

/-- Modelled from the spec: `MemoryRecord.local_record` (not under src/) is
the plain constructor of a local record from its discrete fields. -/
def MemoryRecord.local_record (id : String) (embedding : Embedding)
    (text : String) (description : String) (additional_metadata : String)
    (timestamp : Option Timestamp) : MemoryRecord :=
  { id := id, text := text, description := description,
    additional_metadata := additional_metadata, embedding := embedding,
    timestamp := timestamp }

/-- A document of the bound MongoDB collection, as built by
`upsert_batch_core`: `_id`, `embedding`, `text`, `description`, `metadata`,
and a `timestamp` key that is present only when the upserted record carried
one (modelled by `Option`). -/
structure CosmosDoc where
  _id : String
  embedding : Embedding
  text : String
  description : String
  metadata : String
  timestamp : Option Timestamp
deriving DecidableEq, Repr

/-- One entry of the collection's index metadata, as sent by
`MongoStoreApi.ensure` in its `createIndexes` command. -/
structure IndexDef where
  name : String
  keyField : String
  kind : String
  numLists : Nat
  similarity : String
  dimensions : Nat
deriving DecidableEq, Repr

/-- The four module-level values loaded from the environment at import time
by `azure_cosmos_db_settings_from_dot_env`. -/
structure CosmosConfig where
  cosmos_api : String
  cosmos_connstr : String
  cosmos_database_name : String
  cosmos_container_name : String

/-- State of the MongoDB database and client behind `MongoStoreApi`:
whether the client is a mongos router (checked by the `assert` in `ensure`),
the database's collection names, the bound container's documents and index
metadata, and the ranked result the database's `cosmosSearch` stage would
return for a query vector (its black-box ranking, best first). -/
structure MongoState where
  is_mongos : Bool
  collectionNames : List String
  docs : List CosmosDoc
  indexes : List IndexDef
  search : Embedding → List (CosmosDoc × ℚ)

namespace MongoStoreApi

/-- JSON string escaping as performed by `json.dumps` on the strings that
occur here (backslash, quote and the common control characters; non-ASCII
escaping is not modelled, no claim depends on it). -/
def jsonEscapeChar (c : Char) : String :=
  if c = '\\' then "\\\\"
  else if c = '\"' then "\\\""
  else if c = '\n' then "\\n"
  else if c = '\t' then "\\t"
  else if c = '\r' then "\\r"
  else String.singleton c

/-- JSON encoding of a Python string literal. -/
def jsonStr (s : String) : String :=
  "\"" ++ String.join (s.toList.map jsonEscapeChar) ++ "\""

/-- `MongoStoreApi.__serialize_metadata`: `json.dumps` of the dict holding
the record's `text`, `description` and `additional_metadata` (with
`json.dumps`'s default separators). -/
def serialize_metadata (record : MemoryRecord) : String :=
  "\x7b\"text\": " ++ jsonStr record.text ++
  ", \"description\": " ++ jsonStr record.description ++
  ", \"additional_metadata\": " ++ jsonStr record.additional_metadata ++
  "\x7d"

/-- The `cosmosRecord` dict built for one record inside
`upsert_batch_core`'s loop: the `timestamp` key is set only when the record
carries a timestamp. -/
def recordToCosmosDoc (record : MemoryRecord) : CosmosDoc :=
  { _id := record.id, embedding := record.embedding, text := record.text,
    description := record.description,
    metadata := serialize_metadata record, timestamp := record.timestamp }

/-- The single entry of `indexDefs` sent by `ensure` in its `createIndexes`
command. -/
def cosmosSearchIndexDef (num_lists : Nat) (similarity : String)
    (vector_dimensions : Nat) : IndexDef :=
  { name := "embedding_cosmosSearch", keyField := "embedding",
    kind := "vector-ivf", numLists := num_lists, similarity := similarity,
    dimensions := vector_dimensions }

/-- `MongoStoreApi.ensure`: asserts the client is a mongos router, binds the
collection, reads `index_information()` and, when no index named
`embedding_cosmosSearch` exists, issues a `createIndexes` command with the
vector-ivf definition.  The returned `Bool` records whether the
`createIndexes` command was issued on this call. -/
def ensure (s : MongoState) (num_lists : Nat) (similarity : String)
    (vector_dimensions : Nat) : Except PyError (MongoState × Bool) :=
  if s.is_mongos then
    if (s.indexes.find? (fun ix => ix.name = "embedding_cosmosSearch")).isNone
    then
      Except.ok
        ({ s with indexes := s.indexes ++
            [cosmosSearchIndexDef num_lists similarity vector_dimensions] },
          true)
    else
      Except.ok (s, false)
  else
    Except.error PyError.assertionError

/-- `MongoStoreApi.create_collection_core`: `pass`. -/
def create_collection_core (s : MongoState) (_collection_name : String) :
    MongoState :=
  s

/-- `MongoStoreApi.get_collections_core`: `list_collection_names()` of the
configured database. -/
def get_collections_core (s : MongoState) : List String :=
  s.collectionNames

/-- `MongoStoreApi.delete_collection_core`: drops the bound collection
(ignoring the name argument): its documents and indexes are gone and the
configured container name leaves the database's collection list. -/
def delete_collection_core (cfg : CosmosConfig) (s : MongoState)
    (_collection_name : String) : MongoState :=
  { s with
    docs := [],
    indexes := [],
    collectionNames :=
      s.collectionNames.filter (fun n => n ≠ cfg.cosmos_container_name) }

/-- `MongoStoreApi.does_collection_exist_core`: membership of the
construction-time configured container name in the database's collection
list; the `collection_name` argument is ignored. -/
def does_collection_exist_core (cfg : CosmosConfig) (s : MongoState)
    (_collection_name : String) : Bool :=
  cfg.cosmos_container_name ∈ s.collectionNames

/-- `MongoStoreApi.upsert_batch_core`: maps every record to its
`cosmosRecord` document, appends the record ids to `doc_ids` in order,
performs one `insert_many`, and returns the ids. -/
def upsert_batch_core (s : MongoState) (_collection_name : String)
    (records : List MemoryRecord) : MongoState × List String :=
  let cosmosRecords := records.map recordToCosmosDoc
  let doc_ids := records.map (fun record => (recordToCosmosDoc record)._id)
  ({ s with docs := s.docs ++ cosmosRecords }, doc_ids)

/-- `MongoStoreApi.upsert_core`: delegates to `upsert_batch_core` with the
singleton list and returns `result[0]`. -/
def upsert_core (s : MongoState) (collection_name : String)
    (record : MemoryRecord) : MongoState × String :=
  let result := upsert_batch_core s collection_name [record]
  (result.1, match result.2 with
    | i :: _ => i
    | [] => "")

/-- `find_one({"_id": key})` on the bound collection: the first document
whose `_id` equals the key, if any. -/
def find_one (docs : List CosmosDoc) (key : String) : Option CosmosDoc :=
  docs.find? (fun d => d._id = key)

/-- `MongoStoreApi.get_core`.  When `find_one` returns no document, Python
subscripts `None` and raises `TypeError`.  The projection `{"embedding": 0}`
used when `with_embedding` is false removes a field the code then never
reads, so it needs no separate modelling.  `result["timestamp"]` is accessed
unconditionally and raises `KeyError` when the document has no timestamp
key. -/
def get_core (s : MongoState) (_collection_name : String) (key : String)
    (with_embedding : Bool) : Except PyError MemoryRecord :=
  match find_one s.docs key with
  | none => Except.error PyError.typeError
  | some result =>
    match result.timestamp with
    | none => Except.error PyError.keyError
    | some ts =>
      Except.ok (MemoryRecord.local_record result._id
        (if with_embedding then result.embedding else [])
        result.text result.description result.metadata (some ts))

/-- The body of `get_batch_core`'s list comprehension for one fetched
document (the same record construction as `get_core`). -/
def docToRecord (with_embeddings : Bool) (result : CosmosDoc) :
    Except PyError MemoryRecord :=
  match result.timestamp with
  | none => Except.error PyError.keyError
  | some ts =>
    Except.ok (MemoryRecord.local_record result._id
      (if with_embeddings then result.embedding else [])
      result.text result.description result.metadata (some ts))

/-- The list comprehension of `get_batch_core`: maps each fetched document,
propagating the first raised exception. -/
def mapDocs (with_embeddings : Bool) :
    List CosmosDoc → Except PyError (List MemoryRecord)
  | [] => Except.ok []
  | result :: rest =>
    match docToRecord with_embeddings result with
    | Except.error e => Except.error e
    | Except.ok r =>
      match mapDocs with_embeddings rest with
      | Except.error e => Except.error e
      | Except.ok rs => Except.ok (r :: rs)

/-- `MongoStoreApi.get_batch_core`: `find({"_id": {"$in": keys}})` (the
documents whose id is among the keys, in collection order) mapped through
the record construction. -/
def get_batch_core (s : MongoState) (_collection_name : String)
    (keys : List String) (with_embeddings : Bool) :
    Except PyError (List MemoryRecord) :=
  let results := s.docs.filter (fun d => d._id ∈ keys)
  mapDocs with_embeddings results

/-- `MongoStoreApi.remove_core`: `delete_one` removes the first document
matching the key. -/
def remove_core (s : MongoState) (_collection_name : String) (key : String) :
    MongoState :=
  { s with docs := s.docs.eraseP (fun d => d._id = key) }

/-- `MongoStoreApi.remove_batch_core`: `delete_many` removes every document
whose id is among the keys. -/
def remove_batch_core (s : MongoState) (_collection_name : String)
    (keys : List String) : MongoState :=
  { s with docs := s.docs.filter (fun d => ¬ d._id ∈ keys) }

/-- The loop body of `get_nearest_matches_core`: for each aggregation
result (document with its `similarityScore`), the `MemoryRecord` is built
first — `aggResult["document"]["timestamp"]` raising `KeyError` when the
key is absent — and the pair is appended unless the score is strictly below
`min_relevance_score`. -/
def nearestLoop (min_relevance_score : ℚ) (with_embeddings : Bool) :
    List (CosmosDoc × ℚ) → Except PyError (List (MemoryRecord × ℚ))
  | [] => Except.ok []
  | (doc, score) :: rest =>
    match doc.timestamp with
    | none => Except.error PyError.keyError
    | some ts =>
      let result := MemoryRecord.local_record doc._id
        (if with_embeddings then doc.embedding else [])
        doc.text doc.description doc.metadata (some ts)
      match nearestLoop min_relevance_score with_embeddings rest with
      | Except.error e => Except.error e
      | Except.ok tail =>
        if score < min_relevance_score then Except.ok tail
        else Except.ok ((result, score) :: tail)

/-- The record that `get_nearest_matches_core` builds for a candidate
document when the construction succeeds: the document's fields copied back
into a `MemoryRecord`, the embedding only when requested.  Used to state
what the loop computes. -/
def searchRecord (with_embeddings : Bool) (doc : CosmosDoc) : MemoryRecord :=
  MemoryRecord.local_record doc._id
    (if with_embeddings then doc.embedding else [])
    doc.text doc.description doc.metadata doc.timestamp

/-- `MongoStoreApi.get_nearest_matches_core`: runs the `$search` pipeline
with `"k": limit` — the database returns its ranked candidates truncated to
the first `limit` — then maps and post-filters them in the loop. -/
def get_nearest_matches_core (s : MongoState) (_collection_name : String)
    (embedding : Embedding) (limit : Nat) (min_relevance_score : ℚ)
    (with_embeddings : Bool) : Except PyError (List (MemoryRecord × ℚ)) :=
  nearestLoop min_relevance_score with_embeddings
    ((s.search embedding).take limit)

/-- `MongoStoreApi.get_nearest_match_core`: delegates to
`get_nearest_matches_core` with `limit=1` and returns `nearest_results[0]`
when the list is non-empty, `None` otherwise. -/
def get_nearest_match_core (s : MongoState) (collection_name : String)
    (embedding : Embedding) (min_relevance_score : ℚ)
    (with_embedding : Bool) :
    Except PyError (Option (MemoryRecord × ℚ)) :=
  match get_nearest_matches_core s collection_name embedding 1
      min_relevance_score with_embedding with
  | Except.error e => Except.error e
  | Except.ok nearest_results =>
    match nearest_results with
    | r :: _ => Except.ok (some r)
    | [] => Except.ok none

end MongoStoreApi

/-- The abstract base class `AzureCosmosDBStoreApi` (the Backend Capability
Port): a record of the core operations, polymorphic in the adapter's hidden
state `σ`.  State-mutating methods return the new state alongside their
result, mirroring the adapters' mutation of `self`. -/
structure AzureCosmosDBStoreApi (σ : Type) where
  ensure : σ → Nat → String → Nat → Except PyError σ
  create_collection_core : σ → String → σ
  get_collections_core : σ → List String
  delete_collection_core : σ → String → σ
  does_collection_exist_core : σ → String → Bool
  upsert_core : σ → String → MemoryRecord → σ × String
  upsert_batch_core : σ → String → List MemoryRecord → σ × List String
  get_core : σ → String → String → Bool → Except PyError MemoryRecord
  get_batch_core :
    σ → String → List String → Bool → Except PyError (List MemoryRecord)
  remove_core : σ → String → String → σ
  remove_batch_core : σ → String → List String → σ
  get_nearest_matches_core :
    σ → String → Embedding → Nat → ℚ → Bool →
    Except PyError (List (MemoryRecord × ℚ))
  get_nearest_match_core :
    σ → String → Embedding → ℚ → Bool →
    Except PyError (Option (MemoryRecord × ℚ))

/-- The `MongoStoreApi` adapter packaged as an instance of the port (the
instrumentation `Bool` returned by `ensure` is dropped, as the Python method
returns `None`). -/
def MongoStoreApi.api (cfg : CosmosConfig) :
    AzureCosmosDBStoreApi MongoState where
  ensure s nl sim dim :=
    match MongoStoreApi.ensure s nl sim dim with
    | Except.error e => Except.error e
    | Except.ok p => Except.ok p.1
  create_collection_core := MongoStoreApi.create_collection_core
  get_collections_core := MongoStoreApi.get_collections_core
  delete_collection_core := MongoStoreApi.delete_collection_core cfg
  does_collection_exist_core := MongoStoreApi.does_collection_exist_core cfg
  upsert_core := MongoStoreApi.upsert_core
  upsert_batch_core := MongoStoreApi.upsert_batch_core
  get_core := MongoStoreApi.get_core
  get_batch_core := MongoStoreApi.get_batch_core
  remove_core := MongoStoreApi.remove_core
  remove_batch_core := MongoStoreApi.remove_batch_core
  get_nearest_matches_core := MongoStoreApi.get_nearest_matches_core
  get_nearest_match_core := MongoStoreApi.get_nearest_match_core

namespace AzureCosmosDBMemoryStore

/-- The expression `str()` that every facade method passes as the collection
name argument of the core operation. -/
def emptyStr : String := ""

/-- `AzureCosmosDBMemoryStore.create_collection_async`: `pass`. -/
def create_collection_async {σ : Type} (_api : AzureCosmosDBStoreApi σ)
    (s : σ) (_collection_name : String) : σ :=
  s

/-- `AzureCosmosDBMemoryStore.get_collections_async`. -/
def get_collections_async {σ : Type} (api : AzureCosmosDBStoreApi σ)
    (s : σ) : List String :=
  api.get_collections_core s

/-- `AzureCosmosDBMemoryStore.delete_collection_async`: forwards to
`delete_collection_core(str())`. -/
def delete_collection_async {σ : Type} (api : AzureCosmosDBStoreApi σ)
    (s : σ) (_collection_name : String) : σ :=
  api.delete_collection_core s emptyStr

/-- `AzureCosmosDBMemoryStore.does_collection_exist_async`: forwards to
`does_collection_exist_core(str())`. -/
def does_collection_exist_async {σ : Type} (api : AzureCosmosDBStoreApi σ)
    (s : σ) (_collection_name : String) : Bool :=
  api.does_collection_exist_core s emptyStr

/-- `AzureCosmosDBMemoryStore.upsert_async`: forwards to
`upsert_core(str(), record)`. -/
def upsert_async {σ : Type} (api : AzureCosmosDBStoreApi σ) (s : σ)
    (_collection_name : String) (record : MemoryRecord) : σ × String :=
  api.upsert_core s emptyStr record

/-- `AzureCosmosDBMemoryStore.upsert_batch_async`: forwards to
`upsert_batch_core(str(), records)`. -/
def upsert_batch_async {σ : Type} (api : AzureCosmosDBStoreApi σ) (s : σ)
    (_collection_name : String) (records : List MemoryRecord) :
    σ × List String :=
  api.upsert_batch_core s emptyStr records

/-- `AzureCosmosDBMemoryStore.get_async`: forwards to
`get_core(str(), key, with_embedding)`. -/
def get_async {σ : Type} (api : AzureCosmosDBStoreApi σ) (s : σ)
    (_collection_name : String) (key : String) (with_embedding : Bool) :
    Except PyError MemoryRecord :=
  api.get_core s emptyStr key with_embedding

/-- `AzureCosmosDBMemoryStore.get_batch_async`: forwards to
`get_batch_core(str(), keys, with_embeddings)`. -/
def get_batch_async {σ : Type} (api : AzureCosmosDBStoreApi σ) (s : σ)
    (_collection_name : String) (keys : List String)
    (with_embeddings : Bool) : Except PyError (List MemoryRecord) :=
  api.get_batch_core s emptyStr keys with_embeddings

/-- `AzureCosmosDBMemoryStore.remove_async`: forwards to
`remove_core(str(), key)`. -/
def remove_async {σ : Type} (api : AzureCosmosDBStoreApi σ) (s : σ)
    (_collection_name : String) (key : String) : σ :=
  api.remove_core s emptyStr key

/-- `AzureCosmosDBMemoryStore.remove_batch_async`: forwards to
`remove_batch_core(str(), keys)`. -/
def remove_batch_async {σ : Type} (api : AzureCosmosDBStoreApi σ) (s : σ)
    (_collection_name : String) (keys : List String) : σ :=
  api.remove_batch_core s emptyStr keys

/-- `AzureCosmosDBMemoryStore.get_nearest_matches_async`: forwards to
`get_nearest_matches_core(str(), ...)`. -/
def get_nearest_matches_async {σ : Type} (api : AzureCosmosDBStoreApi σ)
    (s : σ) (_collection_name : String) (embedding : Embedding)
    (limit : Nat) (min_relevance_score : ℚ) (with_embeddings : Bool) :
    Except PyError (List (MemoryRecord × ℚ)) :=
  api.get_nearest_matches_core s emptyStr embedding limit
    min_relevance_score with_embeddings

/-- `AzureCosmosDBMemoryStore.get_nearest_match_async`: forwards to
`get_nearest_match_core(str(), ...)`. -/
def get_nearest_match_async {σ : Type} (api : AzureCosmosDBStoreApi σ)
    (s : σ) (_collection_name : String) (embedding : Embedding)
    (min_relevance_score : ℚ) (with_embedding : Bool) :
    Except PyError (Option (MemoryRecord × ℚ)) :=
  api.get_nearest_match_core s emptyStr embedding min_relevance_score
    with_embedding

/-- `AzureCosmosDBMemoryStore.create`: when the module-level `cosmos_api`
is `"mongo-vcore"`, constructs a `MongoStoreApi` over a new client, calls
`ensure` and wraps the adapter in a store; any other discriminator raises
`NotImplementedError` (the specification's `UnsupportedBackend`) before any
adapter is constructed. -/
def create (cfg : CosmosConfig) (s : MongoState) (num_lists : Nat)
    (similarity : String) (vector_dimensions : Nat) :
    Except PyError (AzureCosmosDBStoreApi MongoState × MongoState) :=
  if cfg.cosmos_api = "mongo-vcore" then
    match MongoStoreApi.ensure s num_lists similarity vector_dimensions with
    | Except.error e => Except.error e
    | Except.ok p => Except.ok (MongoStoreApi.api cfg, p.1)
  else
    Except.error PyError.notImplementedError

end AzureCosmosDBMemoryStore

/-! Concrete values used by the closed evaluations below. -/

/-- A record holding a timestamp. -/
def recA : MemoryRecord :=
  { id := "a", text := "t", description := "d", additional_metadata := "m",
    embedding := [1], timestamp := some 7 }

/-- A record carrying no timestamp. -/
def recNoTs : MemoryRecord :=
  { id := "n", text := "tn", description := "dn",
    additional_metadata := "mn", embedding := [3], timestamp := none }

/-- The document `upsert_batch_core` builds for `recA`. -/
def docA : CosmosDoc := MongoStoreApi.recordToCosmosDoc recA

/-- A second document, with a timestamp. -/
def docB : CosmosDoc :=
  { _id := "b", embedding := [2], text := "t2", description := "d2",
    metadata := "m2", timestamp := some 8 }

/-- Configuration with the implemented backend kind. -/
def cfgMongo : CosmosConfig :=
  { cosmos_api := "mongo-vcore", cosmos_connstr := "cs",
    cosmos_database_name := "db", cosmos_container_name := "cont" }

/-- Configuration with an unrecognized backend kind. -/
def cfgOther : CosmosConfig :=
  { cfgMongo with cosmos_api := "gremlin" }

/-- An empty bound collection on a mongos client. -/
def s0 : MongoState :=
  { is_mongos := true, collectionNames := ["cont"], docs := [],
    indexes := [], search := fun _ => [] }

/-- State holding exactly `docA`. -/
def sDocA : MongoState := { s0 with docs := [docA] }

/-- State whose vector search ranks `docA` (score 5) before `docB`
(score 2). -/
def sSearch : MongoState :=
  { s0 with
    docs := [docA, docB],
    search := fun _ => [(docA, 5), (docB, 2)] }

/-- The record `get_core` returns for `docA` without the embedding. -/
def recARead : MemoryRecord :=
  MemoryRecord.local_record "a" [] "t" "d"
    (MongoStoreApi.serialize_metadata recA) (some 7)

/-- The record `get_core` returns for `docA` with the embedding. -/
def recARoundtrip : MemoryRecord :=
  MemoryRecord.local_record "a" [1] "t" "d"
    (MongoStoreApi.serialize_metadata recA) (some 7)

/-- The nearest-matches result on `sSearch` with threshold 3. -/
def nmRes : List (MemoryRecord × ℚ) :=
  [(MongoStoreApi.searchRecord true docA, 5)]

/-- A port instance over trivial state whose collection-existence check
depends on the collection name it is given: it observes which name the
facade forwards. -/
def spyApi : AzureCosmosDBStoreApi Unit :=
  { ensure := fun s _ _ _ => Except.ok s,
    create_collection_core := fun s _ => s,
    get_collections_core := fun _ => [],
    delete_collection_core := fun s _ => s,
    does_collection_exist_core := fun _ name => name = "target",
    upsert_core := fun s _ r => (s, r.id),
    upsert_batch_core := fun s _ rs => (s, rs.map MemoryRecord.id),
    get_core := fun _ _ _ _ => Except.error PyError.typeError,
    get_batch_core := fun _ _ _ _ => Except.ok [],
    remove_core := fun s _ _ => s,
    remove_batch_core := fun s _ _ => s,
    get_nearest_matches_core := fun _ _ _ _ _ _ => Except.ok [],
    get_nearest_match_core := fun _ _ _ _ _ => Except.ok none }

/-! Theorems. -/

/-- C10: `does_collection_exist_core` is independent of its collection-name
argument — on the same database state it returns the same boolean for any
two names, namely membership of the construction-time configured container
name in the database's collection list. -/
theorem C10_collection_exists_name_independent (cfg : CosmosConfig)
    (s : MongoState) (n1 n2 : String) :
    MongoStoreApi.does_collection_exist_core cfg s n1 =
      MongoStoreApi.does_collection_exist_core cfg s n2 ∧
    MongoStoreApi.does_collection_exist_core cfg s n1 =
      decide (cfg.cosmos_container_name ∈ s.collectionNames) :=
  ⟨rfl, rfl⟩

/-- C1 (counterexample): the facade does not forward the collection name it
received.  On a port whose existence check is true exactly for the name
"target", calling the facade with "target" disagrees with calling the core
operation with "target": the facade passed `str()` instead. -/
theorem C1_counterexample :
    AzureCosmosDBMemoryStore.does_collection_exist_async spyApi () "target" ≠
      spyApi.does_collection_exist_core () "target" := by
  decide

/-- C1 (amended): every name-taking facade method forwards to the
corresponding Backend Capability Port operation passing the constant
`str()` — the empty string — as the collection name, with the remaining
arguments unchanged. -/
theorem C1_facade_forwards_empty_name {σ : Type}
    (api : AzureCosmosDBStoreApi σ) (s : σ) (cn : String)
    (record : MemoryRecord) (records : List MemoryRecord) (key : String)
    (keys : List String) (e : Embedding) (limit : Nat) (minScore : ℚ)
    (b : Bool) :
    AzureCosmosDBMemoryStore.delete_collection_async api s cn =
      api.delete_collection_core s "" ∧
    AzureCosmosDBMemoryStore.does_collection_exist_async api s cn =
      api.does_collection_exist_core s "" ∧
    AzureCosmosDBMemoryStore.upsert_async api s cn record =
      api.upsert_core s "" record ∧
    AzureCosmosDBMemoryStore.upsert_batch_async api s cn records =
      api.upsert_batch_core s "" records ∧
    AzureCosmosDBMemoryStore.get_async api s cn key b =
      api.get_core s "" key b ∧
    AzureCosmosDBMemoryStore.get_batch_async api s cn keys b =
      api.get_batch_core s "" keys b ∧
    AzureCosmosDBMemoryStore.remove_async api s cn key =
      api.remove_core s "" key ∧
    AzureCosmosDBMemoryStore.remove_batch_async api s cn keys =
      api.remove_batch_core s "" keys ∧
    AzureCosmosDBMemoryStore.get_nearest_matches_async api s cn e limit
        minScore b =
      api.get_nearest_matches_core s "" e limit minScore b ∧
    AzureCosmosDBMemoryStore.get_nearest_match_async api s cn e minScore b =
      api.get_nearest_match_core s "" e minScore b :=
  ⟨rfl, rfl, rfl, rfl, rfl, rfl, rfl, rfl, rfl, rfl⟩

/-- C8: with any backend-kind discriminator other than "mongo-vcore", the
factory `AzureCosmosDBMemoryStore.create` fails fast with
`NotImplementedError` (the specification's `UnsupportedBackend`) and
constructs no adapter. -/
theorem C8_create_unsupported_backend (cfg : CosmosConfig) (s : MongoState)
    (nl : Nat) (sim : String) (dim : Nat)
    (h : cfg.cosmos_api ≠ "mongo-vcore") :
    AzureCosmosDBMemoryStore.create cfg s nl sim dim =
      Except.error PyError.notImplementedError := by
  simp [AzureCosmosDBMemoryStore.create, h]

/-- Witness for C8: the "gremlin" discriminator is rejected. -/
theorem C8_witness :
    cfgOther.cosmos_api ≠ "mongo-vcore" ∧
    AzureCosmosDBMemoryStore.create cfgOther s0 1 "COS" 4 =
      Except.error PyError.notImplementedError :=
  ⟨by decide, C8_create_unsupported_backend cfgOther s0 1 "COS" 4
    (by decide)⟩

/-- C5: `get_nearest_match_core` equals `get_nearest_matches_core` with
`limit=1` followed by taking the head of the returned list, and in
particular returns `none` (not an error) whenever that list is empty. -/
theorem C5_nearest_match_refines_matches (s : MongoState) (cn : String)
    (e : Embedding) (minScore : ℚ) (we : Bool) :
    MongoStoreApi.get_nearest_match_core s cn e minScore we =
      (MongoStoreApi.get_nearest_matches_core s cn e 1 minScore we).map
        List.head? ∧
    (MongoStoreApi.get_nearest_matches_core s cn e 1 minScore we =
        Except.ok [] →
      MongoStoreApi.get_nearest_match_core s cn e minScore we =
        Except.ok none) := by
  constructor
  · unfold MongoStoreApi.get_nearest_match_core
    cases h : MongoStoreApi.get_nearest_matches_core s cn e 1 minScore we
      with
    | error err => rfl
    | ok l => cases l with
      | nil => rfl
      | cons r t => rfl
  · intro h
    unfold MongoStoreApi.get_nearest_match_core
    rw [h]

/-- Witness for C5: on the empty store, the single-match query returns the
absent value. -/
theorem C5_witness :
    MongoStoreApi.get_nearest_match_core s0 "c" [] 0 false =
      Except.ok none :=
  (C5_nearest_match_refines_matches s0 "c" [] 0 false).2 rfl

/-- Helper: `find_one` skips a left run holding no document with the key. -/
theorem find_one_append_of_not_found (l1 l2 : List CosmosDoc) (key : String)
    (h : ∀ d ∈ l1, d._id ≠ key) :
    MongoStoreApi.find_one (l1 ++ l2) key = MongoStoreApi.find_one l2 key := by
  unfold MongoStoreApi.find_one
  rw [List.find?_append]
  have hnone : l1.find? (fun d => d._id = key) = none :=
    List.find?_eq_none.mpr (fun d hd => by simp [h d hd])
  rw [hnone, Option.none_or]

/-- Helper: `find_one` on a singleton matching the key. -/
theorem find_one_singleton_self (d : CosmosDoc) :
    MongoStoreApi.find_one [d] d._id = some d := by
  unfold MongoStoreApi.find_one
  simp

/-- Helper: the documents after an `upsert_core` are the previous documents
with the record's document appended. -/
theorem upsert_core_docs (s : MongoState) (cn : String) (r : MemoryRecord) :
    (MongoStoreApi.upsert_core s cn r).1.docs =
      s.docs ++ [MongoStoreApi.recordToCosmosDoc r] :=
  rfl

/-- Helper: `find_one` after upserting a fresh id finds the new document. -/
theorem find_one_after_upsert (s : MongoState) (cn : String)
    (r : MemoryRecord) (hfresh : ∀ d ∈ s.docs, d._id ≠ r.id) :
    MongoStoreApi.find_one (MongoStoreApi.upsert_core s cn r).1.docs r.id =
      some (MongoStoreApi.recordToCosmosDoc r) := by
  rw [upsert_core_docs, find_one_append_of_not_found _ _ _ hfresh]
  exact find_one_singleton_self (MongoStoreApi.recordToCosmosDoc r)

/-- C3 (counterexample): looking up an id with no matching document fails
with `TypeError` (Python subscripts the `None` returned by `find_one`), not
with the `NotFound` error of the claim. -/
theorem C3_counterexample :
    MongoStoreApi.get_core s0 "c" "missing" true =
      Except.error PyError.typeError ∧
    (Except.error PyError.typeError : Except PyError MemoryRecord) ≠
      Except.error PyError.notFound :=
  ⟨rfl, by simp⟩

/-- C3 (amended): for every state and id with no matching document,
`get_core` fails — but with the `TypeError` raised by subscripting the
absent result, not with a `NotFound` error. -/
theorem C3_get_missing_raises_type_error (s : MongoState) (cn key : String)
    (we : Bool) (h : ∀ d ∈ s.docs, d._id ≠ key) :
    MongoStoreApi.get_core s cn key we = Except.error PyError.typeError := by
  have hf : MongoStoreApi.find_one s.docs key = none := by
    unfold MongoStoreApi.find_one
    exact List.find?_eq_none.mpr (fun d hd => by simp [h d hd])
  unfold MongoStoreApi.get_core
  rw [hf]

/-- Witness for C3 (amended): the empty store at key "missing". -/
theorem C3_witness :
    MongoStoreApi.get_core s0 "c" "missing" true =
      Except.error PyError.typeError :=
  C3_get_missing_raises_type_error s0 "c" "missing" true
    (by intro d hd; simp [s0] at hd)

/-- C9: a document stores a `timestamp` key exactly when the upserted
record carried one, and reading back a record upserted without a timestamp
fails with the `KeyError` raised by the unconditional
`result["timestamp"]` access. -/
theorem C9_upsert_without_timestamp_breaks_get (s : MongoState)
    (cn : String) (r : MemoryRecord) (we : Bool)
    (hts : r.timestamp = none) (hfresh : ∀ d ∈ s.docs, d._id ≠ r.id) :
    (MongoStoreApi.recordToCosmosDoc r).timestamp = none ∧
    MongoStoreApi.get_core (MongoStoreApi.upsert_core s cn r).1 cn r.id we =
      Except.error PyError.keyError := by
  refine ⟨hts, ?_⟩
  unfold MongoStoreApi.get_core
  rw [find_one_after_upsert s cn r hfresh]
  simp [MongoStoreApi.recordToCosmosDoc, hts]

/-- Witness for C9: upserting the timestamp-less `recNoTs` into the empty
store and reading it back raises `KeyError`. -/
theorem C9_witness :
    (MongoStoreApi.recordToCosmosDoc recNoTs).timestamp = none ∧
    MongoStoreApi.get_core
        (MongoStoreApi.upsert_core s0 "c" recNoTs).1 "c" recNoTs.id true =
      Except.error PyError.keyError :=
  C9_upsert_without_timestamp_breaks_get s0 "c" recNoTs true rfl
    (by intro d hd; simp [s0] at hd)

/-- C2 (counterexample): upserting `recA` and reading it back with the
embedding succeeds, but the returned `additional_metadata` is the whole
serialized blob, not the stored record's metadata — the fold is not
unpacked on read. -/
theorem C2_counterexample :
    MongoStoreApi.get_core (MongoStoreApi.upsert_core s0 "c" recA).1 "c"
        recA.id true = Except.ok recARoundtrip ∧
    recARoundtrip.additional_metadata ≠ recA.additional_metadata :=
  ⟨rfl, by decide⟩

/-- C2 (amended): for a record with a timestamp whose id is fresh in the
store, upsert followed by a read with the embedding returns a record equal
to it in id, text, description, embedding and timestamp, whose
`additional_metadata` is the single serialized metadata field written by
`__serialize_metadata` (it is not unpacked back into the discrete
fields). -/
theorem C2_roundtrip_amended (s : MongoState) (cn : String)
    (r : MemoryRecord) (hemb : r.embedding ≠ [])
    (hts : r.timestamp.isSome)
    (hfresh : ∀ d ∈ s.docs, d._id ≠ r.id) :
    ∃ rec, MongoStoreApi.get_core (MongoStoreApi.upsert_core s cn r).1 cn
        r.id true = Except.ok rec ∧
      rec.id = r.id ∧ rec.text = r.text ∧
      rec.description = r.description ∧ rec.embedding = r.embedding ∧
      rec.timestamp = r.timestamp ∧
      rec.additional_metadata = MongoStoreApi.serialize_metadata r := by
  obtain ⟨ts, hts2⟩ := Option.isSome_iff_exists.mp hts
  refine ⟨MemoryRecord.local_record r.id r.embedding r.text r.description
    (MongoStoreApi.serialize_metadata r) (some ts), ?_, rfl, rfl, rfl, rfl,
    hts2.symm, rfl⟩
  unfold MongoStoreApi.get_core
  rw [find_one_after_upsert s cn r hfresh]
  simp [MongoStoreApi.recordToCosmosDoc, hts2, MemoryRecord.local_record]

/-- Witness for C2 (amended): the concrete record `recA` on the empty
store. -/
theorem C2_witness :
    ∃ rec, MongoStoreApi.get_core (MongoStoreApi.upsert_core s0 "c" recA).1
        "c" recA.id true = Except.ok rec ∧
      rec.id = recA.id ∧ rec.text = recA.text ∧
      rec.description = recA.description ∧
      rec.embedding = recA.embedding ∧ rec.timestamp = recA.timestamp ∧
      rec.additional_metadata = MongoStoreApi.serialize_metadata recA :=
  C2_roundtrip_amended s0 "c" recA (by decide) (by decide)
    (by intro d hd; simp [s0] at hd)

/-- Helper: whatever the fetched documents, the batch comprehension with
`with_embeddings=false` only produces records with empty embeddings. -/
theorem mapDocs_false_embedding (l : List CosmosDoc)
    (rs : List MemoryRecord)
    (h : MongoStoreApi.mapDocs false l = Except.ok rs) :
    ∀ r ∈ rs, r.embedding = [] := by
  induction l generalizing rs with
  | nil =>
    unfold MongoStoreApi.mapDocs at h
    cases h
    simp
  | cons d t ih =>
    unfold MongoStoreApi.mapDocs at h
    cases hd : MongoStoreApi.docToRecord false d with
    | error e =>
      simp only [hd] at h
      exact (Except.noConfusion h)
    | ok r0 =>
      simp only [hd] at h
      cases ht : MongoStoreApi.mapDocs false t with
      | error e =>
        simp only [ht] at h
        exact (Except.noConfusion h)
      | ok rs0 =>
        simp only [ht] at h
        cases h
        intro r hr
        rcases List.mem_cons.mp hr with h1 | h2
        · subst h1
          unfold MongoStoreApi.docToRecord at hd
          cases hts : d.timestamp with
          | none =>
            simp only [hts] at hd
            exact (Except.noConfusion hd)
          | some ts =>
            simp only [hts] at hd
            cases hd
            simp [MemoryRecord.local_record]
        · exact ih rs0 ht r h2

/-- C7: with `includeEmbedding=false`, any record `get_core` returns, and
every element of any list `get_batch_core` returns, has the empty
embedding sequence — regardless of which embedding is stored. -/
theorem C7_empty_embedding_when_not_requested (s : MongoState)
    (cn key : String) (keys : List String) :
    (∀ r, MongoStoreApi.get_core s cn key false = Except.ok r →
      r.embedding = []) ∧
    (∀ rs, MongoStoreApi.get_batch_core s cn keys false = Except.ok rs →
      ∀ r ∈ rs, r.embedding = []) := by
  constructor
  · intro r h
    unfold MongoStoreApi.get_core at h
    cases hf : MongoStoreApi.find_one s.docs key with
    | none =>
      simp only [hf] at h
      exact (Except.noConfusion h)
    | some result =>
      simp only [hf] at h
      cases hts : result.timestamp with
      | none =>
        simp only [hts] at h
        exact (Except.noConfusion h)
      | some ts =>
        simp only [hts] at h
        cases h
        simp [MemoryRecord.local_record]
  · intro rs h
    exact mapDocs_false_embedding _ rs h

/-- Witness for C7: reading `docA` (stored with embedding `[1]`) back from
`sDocA` without the embedding yields the empty embedding. -/
theorem C7_witness :
    MongoStoreApi.get_core sDocA "c" "a" false = Except.ok recARead ∧
    recARead.embedding = [] :=
  ⟨rfl, (C7_empty_embedding_when_not_requested sDocA "c" "a" ["a"]).1
    recARead rfl⟩

/-- C6: `ensure` is idempotent — it checks the existing index metadata
first, is a no-op issuing no `createIndexes` command when the index named
`embedding_cosmosSearch` already exists, a second call with the same
parameters succeeds without changing the state or issuing the command, and
afterwards exactly one index of that name exists (at most one is ever
created). -/
theorem C6_ensure_idempotent (s : MongoState) (nl : Nat) (sim : String)
    (dim : Nat) (h : s.is_mongos = true) :
    ∃ s1 b1, MongoStoreApi.ensure s nl sim dim = Except.ok (s1, b1) ∧
      MongoStoreApi.ensure s1 nl sim dim = Except.ok (s1, false) ∧
      ((s.indexes.find?
          (fun ix => ix.name = "embedding_cosmosSearch")).isSome →
        MongoStoreApi.ensure s nl sim dim = Except.ok (s, false)) ∧
      s1.indexes.countP (fun ix => ix.name = "embedding_cosmosSearch") =
        max (s.indexes.countP
          (fun ix => ix.name = "embedding_cosmosSearch")) 1 := by
  cases hfind : s.indexes.find?
      (fun ix => ix.name = "embedding_cosmosSearch") with
  | none =>
    refine ⟨{ s with indexes :=
      s.indexes ++ [MongoStoreApi.cosmosSearchIndexDef nl sim dim] }, true,
      ?_, ?_, ?_, ?_⟩
    · simp [MongoStoreApi.ensure, h, hfind]
    · simp [MongoStoreApi.ensure, h, hfind, List.find?_append,
        MongoStoreApi.cosmosSearchIndexDef]
    · intro hsome
      simp at hsome
    · have h0 : s.indexes.countP
          (fun ix => ix.name = "embedding_cosmosSearch") = 0 :=
        List.countP_eq_zero.mpr (List.find?_eq_none.mp hfind)
      simp [List.countP_append, h0, MongoStoreApi.cosmosSearchIndexDef,
        List.countP_cons]
  | some ixFound =>
    refine ⟨s, false, ?_, ?_, ?_, ?_⟩
    · simp [MongoStoreApi.ensure, h, hfind]
    · simp [MongoStoreApi.ensure, h, hfind]
    · intro _
      simp [MongoStoreApi.ensure, h, hfind]
    · have hpos : 0 < s.indexes.countP
          (fun ix => ix.name = "embedding_cosmosSearch") := by
        apply List.countP_pos_iff.mpr
        refine ⟨ixFound, List.mem_of_find?_eq_some hfind, ?_⟩
        have hp := List.find?_some hfind
        simpa using hp
      omega

/-- Witness for C6: the empty store on a mongos client. -/
theorem C6_witness :
    ∃ s1 b1, MongoStoreApi.ensure s0 3 "COS" 4 = Except.ok (s1, b1) ∧
      MongoStoreApi.ensure s1 3 "COS" 4 = Except.ok (s1, false) ∧
      ((s0.indexes.find?
          (fun ix => ix.name = "embedding_cosmosSearch")).isSome →
        MongoStoreApi.ensure s0 3 "COS" 4 = Except.ok (s0, false)) ∧
      s1.indexes.countP (fun ix => ix.name = "embedding_cosmosSearch") =
        max (s0.indexes.countP
          (fun ix => ix.name = "embedding_cosmosSearch")) 1 :=
  C6_ensure_idempotent s0 3 "COS" 4 rfl

/-- Helper: a successful `nearestLoop` returns exactly the candidates whose
score is not strictly below the threshold, in candidate order, each mapped
to its record. -/
theorem nearestLoop_ok (minScore : ℚ) (we : Bool)
    (l : List (CosmosDoc × ℚ)) (res : List (MemoryRecord × ℚ))
    (h : MongoStoreApi.nearestLoop minScore we l = Except.ok res) :
    res = (l.filter (fun p => ¬ p.2 < minScore)).map
      (fun p => (MongoStoreApi.searchRecord we p.1, p.2)) := by
  induction l generalizing res with
  | nil =>
    unfold MongoStoreApi.nearestLoop at h
    cases h
    rfl
  | cons p t ih =>
    obtain ⟨doc, score⟩ := p
    unfold MongoStoreApi.nearestLoop at h
    cases hts : doc.timestamp with
    | none =>
      simp only [hts] at h
      exact (Except.noConfusion h)
    | some ts =>
      simp only [hts] at h
      cases hrec : MongoStoreApi.nearestLoop minScore we t with
      | error e =>
        simp only [hrec] at h
        exact (Except.noConfusion h)
      | ok tail =>
        simp only [hrec] at h
        by_cases hsc : score < minScore
        · simp only [if_pos hsc] at h
          cases h
          simp [List.filter_cons, hsc, ih res hrec]
        · simp only [if_neg hsc] at h
          cases h
          simp [List.filter_cons, not_lt.mp hsc,
            MongoStoreApi.searchRecord, hts, ih tail hrec]

/-- C4: whenever `get_nearest_matches_core` returns a result, it has length
at most `limit`, every returned score is at least `min_relevance_score`,
and it is exactly the database's ranked candidates (truncated to `limit`)
with those scoring strictly below the threshold discarded, in the
database's own order. -/
theorem C4_nearest_matches_post_filter (s : MongoState) (cn : String)
    (e : Embedding) (limit : Nat) (minScore : ℚ) (we : Bool)
    (res : List (MemoryRecord × ℚ))
    (h : MongoStoreApi.get_nearest_matches_core s cn e limit minScore we =
      Except.ok res) :
    res.length ≤ limit ∧ (∀ p ∈ res, minScore ≤ p.2) ∧
    res = (((s.search e).take limit).filter
        (fun p => ¬ p.2 < minScore)).map
      (fun p => (MongoStoreApi.searchRecord we p.1, p.2)) := by
  have hres := nearestLoop_ok minScore we ((s.search e).take limit) res h
  refine ⟨?_, ?_, hres⟩
  · rw [hres, List.length_map]
    exact le_trans (List.length_filter_le _ _) (List.length_take_le _ _)
  · intro p hp
    rw [hres] at hp
    obtain ⟨q, hq, hqp⟩ := List.mem_map.mp hp
    have hq2 : ¬ q.2 < minScore := by
      simpa using (List.mem_filter.mp hq).2
    rw [← hqp]
    exact not_lt.mp hq2

/-- Witness for C4: on `sSearch` (ranked candidates scored 5 then 2) with
threshold 3 and limit 2, only the score-5 candidate survives. -/
theorem C4_witness :
    nmRes.length ≤ 2 ∧ (∀ p ∈ nmRes, (3 : ℚ) ≤ p.2) ∧
    nmRes = (((sSearch.search []).take 2).filter
        (fun p => ¬ p.2 < (3 : ℚ))).map
      (fun p => (MongoStoreApi.searchRecord true p.1, p.2)) :=
  C4_nearest_matches_post_filter sSearch "c" [] 2 3 true nmRes rfl

end AzureCosmosDB
